import Mathlib

/-!
Verification development for the sticker-bot repository
(`sticker_telegram_bot/bot.py`).

Strings are modelled as `List Char`.  Python regular-expression passes,
`str.replace`, `str.split`, and `int()` parsing are embedded as executable
Lean functions that mirror the source line by line.  The per-user pending
map `self.pending_stickers` is modelled as an association list, and the
two stateful handlers (`handle_sticker_pack_selection`,
`handle_cancel_command`) as pure state-transition functions whose external
effects (Telegram API, file download, ffmpeg) are abstracted by a boolean
success parameter and by recording the messages that would be sent.
-/

namespace StickerBot

/-! ### Character classes used by the sanitizer (`make_sticker_set_name`) -/

/-- Python `\s` (ASCII part): the whitespace characters collapsed by
`re.sub(r"\s+", "_", title)` in `make_sticker_set_name`. -/
def isPySpace (c : Char) : Bool :=
  c = ' ' || c = '\t' || c = '\n' || c = '\r' || c = '\x0b' || c = '\x0c'

/-- The class `[A-Za-z0-9_]` kept by `re.sub(r"[^A-Za-z0-9_]", "", ...)`. -/
def isWordChar (c : Char) : Bool :=
  c.isAlpha || c.isDigit || c = '_'

/-! ### The sanitizer pipeline, one definition per `re.sub` pass. -/

/-- The pass `re.sub(r"\s+", "_", title)`: every maximal whitespace run becomes a
single underscore.  The boolean argument remembers whether the previous
character belonged to a whitespace run. -/
def collapseWsAux : Bool → List Char → List Char
  | _, [] => []
  | prev, c :: cs =>
    if isPySpace c then
      (if prev then collapseWsAux true cs else '_' :: collapseWsAux true cs)
    else c :: collapseWsAux false cs

def collapseWs (s : List Char) : List Char := collapseWsAux false s

/-- The pass `re.sub(r"[^A-Za-z0-9_]", "", s)`. -/
def stripNonWord (s : List Char) : List Char := s.filter isWordChar

/-- The pass `re.sub(r"_+", "_", s)`: every maximal underscore run becomes one
underscore. -/
def collapseUndAux : Bool → List Char → List Char
  | _, [] => []
  | prev, c :: cs =>
    if c = '_' then
      (if prev then collapseUndAux true cs else '_' :: collapseUndAux true cs)
    else c :: collapseUndAux false cs

def collapseUnd (s : List Char) : List Char := collapseUndAux false s

/-- The pass `re.sub(r"^([^A-Za-z]+)", "", s)`: remove the maximal leading run of
non-letters. -/
def dropLeadingNonLetters (s : List Char) : List Char :=
  s.dropWhile (fun c => !c.isAlpha)

/-- Python `s.rstrip("_")`: remove every trailing underscore. -/
def rstripUnd : List Char → List Char
  | [] => []
  | c :: cs =>
    match rstripUnd cs with
    | [] => if c = '_' then [] else [c]
    | r => c :: r

/-- The function `StickerBot.make_sticker_set_name` from `bot.py` (lines 82-91):
the four regex passes, the `rstrip("_")`, then the
`f"{cleaned_title}_by_{username}"` suffix. -/
def make_sticker_set_name (title username : List Char) : List Char :=
  rstripUnd (dropLeadingNonLetters (collapseUnd (stripNonWord (collapseWs title))))
    ++ [ '_', 'b', 'y', '_' ] ++ username

/-- The property claimed of the sanitizer's output, i.e. a full match of
the regular expression `^[A-Za-z][A-Za-z0-9_]*_by_<handle>$`: everything
before the fixed `_by_<handle>` suffix is a nonempty word-character
string starting with a letter. -/
def matchesPackPattern (out handle : List Char) : Prop :=
  ∃ stem, out = stem ++ ['_', 'b', 'y', '_'] ++ handle ∧ stem ≠ [] ∧
    (∀ c ∈ stem, isWordChar c = true) ∧
    ∃ c0 rest, stem = c0 :: rest ∧ c0.isAlpha = true

/-! ### Callback token codec

`handle_emoji_response` builds `callback_data =
f"{PACK_PREFIX}{pack}{CALLBACK_DATA_SEPARATOR}{user_id}"` where
`PACK_PREFIX = "pack_"` and the separator is `'|'`.
`handle_sticker_pack_selection` decodes with
`query.data.replace(PACK_PREFIX, "").split("|")`. -/

/-- The marker `PACK_PREFIX = "pack_"`. -/
def packMarker : List Char := ['p', 'a', 'c', 'k', '_']

/-- Decimal digit to character (as Python `str` renders integers). -/
def digitChar : Nat → Char
  | 0 => '0' | 1 => '1' | 2 => '2' | 3 => '3' | 4 => '4'
  | 5 => '5' | 6 => '6' | 7 => '7' | 8 => '8' | 9 => '9'
  | _ => '0'

/-- Python `str(n)` for a natural number: decimal, most significant digit
first. -/
def natToChars (n : Nat) : List Char :=
  if n = 0 then ['0'] else ((Nat.digits 10 n).map digitChar).reverse

/-- The f-string in `handle_emoji_response` (line 377):
`"pack_" + pack + "|" + str(user_id)`. -/
def encodeCallback (pack : List Char) (uid : Nat) : List Char :=
  packMarker ++ pack ++ '|' :: natToChars uid

/-- Whether `p` is an initial segment of `s`. -/
def startsWith : List Char → List Char → Bool
  | [], _ => true
  | _ :: _, [] => false
  | p :: ps, c :: cs => p = c && startsWith ps cs

/-- The marker `"pack_"` occurs (as a contiguous substring) somewhere in
`s` — the occurrences Python's `replace` deletes. -/
def hasMarker : List Char → Bool
  | [] => false
  | c :: cs => startsWith packMarker (c :: cs) || hasMarker cs

/-- Python `data.replace("pack_", "")`: delete every (left-to-right,
non-overlapping) occurrence of the marker. -/
def stripMarker : List Char → List Char
  | 'p' :: 'a' :: 'c' :: 'k' :: '_' :: rest => stripMarker rest
  | c :: rest => c :: stripMarker rest
  | [] => []

/-- Python `s.split(sep)` for a one-character separator: all parts are
kept, including empty ones; splitting the empty string yields `[""]`. -/
def pySplit (sep : Char) : List Char → List (List Char)
  | [] => [[]]
  | c :: cs =>
    if c = sep then [] :: pySplit sep cs
    else
      match pySplit sep cs with
      | [] => [[c]]
      | p :: ps => (c :: p) :: ps

/-- Horner accumulation of decimal digit characters, the value computed by
Python `int(s)` on a plain digit string. -/
def digitsToNat (s : List Char) : Nat :=
  s.foldl (fun a c => 10 * a + (c.toNat - 48)) 0

/-- Model of Python `int(s)` restricted to an optional minus sign followed
by decimal digits (the shapes produced by the bot's own encoder; Python
additionally strips whitespace and accepts `+`/underscores, which never
occur in tokens the bot emits). `none` models `ValueError`. -/
def parseInt (s : List Char) : Option Int :=
  match s with
  | [] => none
  | c :: cs =>
    if c = '-' then
      if cs ≠ [] ∧ cs.all Char.isDigit then some (-(digitsToNat cs : Int)) else none
    else
      if (c :: cs).all Char.isDigit then some ((digitsToNat (c :: cs) : Int)) else none

/-- Outcome of the parse phase of `handle_sticker_pack_selection`
(lines 459-471). `dropped` is the handled `if not all(callback_data):
return` path; `crashed` is an uncaught `ValueError` (tuple unpacking of a
split with a number of parts other than two, or `int()` on a non-numeric
second part). -/
inductive DecodeOutcome where
  | dropped : DecodeOutcome
  | crashed : DecodeOutcome
  | ok : List Char → Int → DecodeOutcome
deriving DecidableEq

/-- The parse phase of `handle_sticker_pack_selection`:
`callback_data = tuple(query.data.replace("pack_", "").split("|"))`;
`if not all(callback_data): return`; then
`selected_pack, callback_user_id = callback_data` (raises unless exactly
two parts) and `int(callback_user_id)` (raises unless numeric). -/
def decodePhase (dat : List Char) : DecodeOutcome :=
  let parts := pySplit '|' (stripMarker dat)
  if parts.any (·.isEmpty) then .dropped
  else
    match parts with
    | [a, b] =>
      match parseInt b with
      | some k => .ok a k
      | none => .crashed
    | _ => .crashed

/-! ### The per-user pending map (`self.pending_stickers : Dict[int, Dict]`) -/

/-- The `"media_type"` value: `"static"` or `"video"`. -/
inductive MediaType where
  | static : MediaType
  | video : MediaType
deriving DecidableEq

/-- One entry of `self.pending_stickers`, the dict built in
`_store_pending_sticker` (lines 152-162) and mutated by
`handle_emoji_response` (lines 367-368). -/
structure PendingSticker where
  message_id : Nat
  file_id : List Char
  chat_id : Int
  user_message_id : Nat
  waiting_for_emoji : Bool
  media_type : MediaType
  emoji : Option (List Char) := none
  duration : Option Rat := none
deriving DecidableEq

/-- The map `self.pending_stickers`, keyed by user id. -/
abbrev PendingMap : Type := List (Nat × PendingSticker)

/-- Lookup `self.pending_stickers.get(user_id)` (also `user_id in self.pending_stickers`). -/
def lookupPending : PendingMap → Nat → Option PendingSticker
  | [], _ => none
  | (k, v) :: rest, u => if k = u then some v else lookupPending rest u

/-- Deletion `del self.pending_stickers[user_id]`. -/
def erasePending : PendingMap → Nat → PendingMap
  | [], _ => []
  | (k, v) :: rest, u =>
    if k = u then erasePending rest u else (k, v) :: erasePending rest u

/-! ### `handle_sticker_pack_selection` (lines 432-554) -/

/-- A message sent back on the originating chat by the selection handler
(via `query.edit_message_text`): the invalid-pack prompt (line 485), the
success message (lines 533-548), or the error report from the `except`
block (lines 550-554). -/
inductive SelMsg where
  | invalidPack : SelMsg
  | success : List Char → SelMsg
  | gatewayFailure : SelMsg
deriving DecidableEq

/-- Result of one run of `handle_sticker_pack_selection`: the map after
the handler, the messages edited into the chat, whether the Gateway
pipeline (file fetch, normalize/transcode, remote submit) was entered,
and whether an uncaught exception escaped the handler. -/
structure SelOutcome where
  pending : PendingMap
  edits : List SelMsg
  invoked : Bool
  crashed : Bool
deriving DecidableEq

/-- The handler `handle_sticker_pack_selection`.  `packs` is `Config.STICKER_PACKS`;
`chatAllowed` the result of the line-444 guard; `gatewayOk` abstracts
whether the whole try-block pipeline (`get_file`, download,
`process_*_for_sticker`, `add_sticker_to_pack`) succeeds.  Mirrors the
source order: guard, parse (`decodePhase`), forged-token check, pending
lookup, pack validation, then the try/except block, whose `except` arm
reports the error but performs no `del`. -/
def handle_sticker_pack_selection (packs : List (List Char)) (pending : PendingMap)
    (userId : Nat) (dat : List Char) (chatAllowed : Bool) (gatewayOk : Bool) :
    SelOutcome :=
  if ¬ chatAllowed then ⟨pending, [], false, false⟩
  else
    match decodePhase dat with
    | .dropped => ⟨pending, [], false, false⟩
    | .crashed => ⟨pending, [], false, true⟩
    | .ok selectedPack cbUid =>
      if cbUid ≠ (userId : Int) then ⟨pending, [], false, false⟩
      else
        match lookupPending pending userId with
        | none => ⟨pending, [], false, false⟩
        | some _ =>
          if selectedPack ∉ packs then ⟨pending, [.invalidPack], false, false⟩
          else if gatewayOk then
            ⟨erasePending pending userId, [.success selectedPack], true, false⟩
          else ⟨pending, [.gatewayFailure], true, false⟩

/-! ### `handle_cancel_command` (lines 266-289) -/

/-- Replies sent by `/cancel`. -/
inductive CancelMsg where
  | cancelled : CancelMsg
  | noPending : CancelMsg
deriving DecidableEq

/-- The handler `handle_cancel_command`: guard on chat and user id, then either delete
the entry and confirm, or reply that nothing is pending. -/
def handle_cancel_command (pending : PendingMap) (chatAllowed : Bool)
    (userId : Option Nat) : PendingMap × List CancelMsg :=
  if ¬ chatAllowed then (pending, [])
  else
    match userId with
    | none => (pending, [])
    | some u =>
      if (lookupPending pending u).isSome then
        (erasePending pending u, [.cancelled])
      else (pending, [.noPending])

/-! ### `process_image_for_sticker` (lines 556-588)

The pixel operations themselves live in PIL; what the source decides is
the geometry (scale ratio, resized dimensions, paste offsets) and the
output contract (512 by 512 RGBA canvas, PNG).  `imagePlan` records those
decisions. -/

inductive ImgFormat where
  | png : ImgFormat
deriving DecidableEq

structure ImagePlan where
  canvasW : Nat
  canvasH : Nat
  hasAlpha : Bool
  transparentBg : Bool
  fmt : ImgFormat
  newW : Nat
  newH : Nat
  offX : Nat
  offY : Nat
deriving DecidableEq

/-- The geometry computed by `process_image_for_sticker`:
`ratio = min(512/width, 512/height)`,
`new_size = (int(width*ratio), int(height*ratio))`,
canvas `Image.new("RGBA", (512, 512), 0)` saved as PNG, paste offsets
`((512-newW)//2, (512-newH)//2)`.  `int()` on the nonnegative products is
the natural-number floor. -/
def process_image_for_sticker (w h : Nat) : ImagePlan :=
  let ratio : Rat := min (512 / (w : Rat)) (512 / (h : Rat))
  let newW : Nat := ⌊(w : Rat) * ratio⌋₊
  let newH : Nat := ⌊(h : Rat) * ratio⌋₊
  { canvasW := 512, canvasH := 512, hasAlpha := true, transparentBg := true,
    fmt := .png, newW := newW, newH := newH,
    offX := (512 - newW) / 2, offY := (512 - newH) / 2 }

/-! ### `process_video_for_sticker` (lines 590-688) -/

/-- The conditional `new_width if new_width % 2 == 0 else new_width - 1`. -/
def evenize (n : Nat) : Nat := if n % 2 = 0 then n else n - 1

/-- The speed multiplier: `duration / 3.0` when `duration > 3.0`, applied
via `vfx.speedx`; otherwise the clip is left alone (factor 1). -/
def speedFactor (d : Rat) : Rat := if 3 < d then d / 3 else 1

/-- The resize target (lines 624-634): 512 on the longer side, the other
side `int(side * (512 / longer))`, then both forced even. -/
def videoDims (w h : Nat) : Nat × Nat :=
  if w > h then
    (evenize 512, evenize ⌊(h : Rat) * (512 / (w : Rat))⌋₊)
  else
    (evenize ⌊(w : Rat) * (512 / (h : Rat))⌋₊, evenize 512)

/-- The decisions `process_video_for_sticker` makes before invoking the
encoder: speed factor, resulting clip duration, output dimensions and
frame rate (`clip.set_fps(30)`). -/
structure TranscodePlan where
  factor : Rat
  outDuration : Rat
  newW : Nat
  newH : Nat
  fps : Nat
deriving DecidableEq

def process_video_for_sticker (w h : Nat) (d : Rat) : TranscodePlan :=
  { factor := speedFactor d
    outDuration := d / speedFactor d
    newW := (videoDims w h).1
    newH := (videoDims w h).2
    fps := 30 }

/-- The transcoder's terminal failure, `raise ValueError(...)` at line 670,
carrying the measured size (modelled in bytes). -/
inductive TranscodeError where
  | outputTooLarge : Nat → TranscodeError
deriving DecidableEq

/-- The size gate (lines 666-675): `file_size_kb = len(webm_data) / 1024`;
`if file_size_kb > 256: raise`, else return the encoded bytes.  Bytes are
modelled by their count only, since only `len` is inspected. -/
def checkVideoSize (byteLen : Nat) : Except TranscodeError Nat :=
  if 256 < (byteLen : Rat) / 1024 then .error (.outputTooLarge byteLen)
  else .ok byteLen

/-! ### Concrete sample states used by witnesses and counterexamples -/

/-- A pending submission whose emoji is already confirmed
(`waiting_for_emoji = False`), i.e. the `AwaitingCollection` stage. -/
def samplePending : PendingSticker :=
  { message_id := 1, file_id := ['f', '1'], chat_id := -100,
    user_message_id := 2, waiting_for_emoji := false, media_type := .static,
    emoji := some ['x'], duration := none }

/-- A pending submission still waiting for its emoji
(`waiting_for_emoji = True`), i.e. the `AwaitingEmoji` stage. -/
def sampleAwaitingEmoji : PendingSticker :=
  { message_id := 3, file_id := ['f', '2'], chat_id := -100,
    user_message_id := 4, waiting_for_emoji := true, media_type := .video,
    emoji := none, duration := none }

/-! ## Helper lemmas about the pending map -/

lemma lookup_erase_self (m : PendingMap) (u : Nat) :
    lookupPending (erasePending m u) u = none := by
  induction m with
  | nil => rfl
  | cons kv rest ih =>
    obtain ⟨k, v⟩ := kv
    by_cases hk : k = u
    · simpa [erasePending, hk] using ih
    · simpa [erasePending, lookupPending, hk] using ih

lemma lookup_erase_ne (m : PendingMap) (u w : Nat) (hw : w ≠ u) :
    lookupPending (erasePending m u) w = lookupPending m w := by
  induction m with
  | nil => rfl
  | cons kv rest ih =>
    obtain ⟨k, v⟩ := kv
    by_cases hk : k = u
    · subst hk
      simp [erasePending, lookupPending, Ne.symm hw, ih]
    · by_cases hkw : k = w <;> simp [erasePending, lookupPending, hk, hkw, hw, ih]

/-! ## Arithmetic helpers for the media pipeline -/

/-- The conditional `n if n % 2 == 0 else n - 1` is exactly rounding down
to the nearest even natural number. -/
lemma evenize_eq (n : Nat) : evenize n = 2 * (n / 2) := by
  unfold evenize; split <;> omega

/-- The value `int(a * (512 / b))` in exact arithmetic is the natural division
`512 * a / b`. -/
lemma floor_scale512 (a b : Nat) :
    ⌊(a : Rat) * (512 / (b : Rat))⌋₊ = 512 * a / b := by
  have h : (a : Rat) * (512 / (b : Rat)) = ((512 * a : Nat) : Rat) / ((b : Nat) : Rat) := by
    push_cast; ring
  rw [h, Nat.floor_div_nat, Nat.floor_natCast]

/-! ## C7 — the 256 KB output gate of the transcoder -/

/-- C7: for every transcoded output whose byte size exceeds 256 KB
(262144 bytes), `process_video_for_sticker`'s size gate fails with
`OutputTooLarge` carrying the measured size and returns no output; at or
under 256 KB the encoded bytes pass through unchanged. -/
theorem video_size_gate (n : Nat) :
    (262144 < n → checkVideoSize n = .error (.outputTooLarge n)) ∧
    (n ≤ 262144 → checkVideoSize n = .ok n) := by
  have key : ((256 : Rat) < (n : Rat) / 1024) ↔ 262144 < n := by
    rw [lt_div_iff₀ (by norm_num : (0 : Rat) < 1024)]
    norm_num
  constructor
  · intro h
    unfold checkVideoSize
    rw [if_pos (key.mpr h)]
  · intro h
    unfold checkVideoSize
    rw [if_neg]
    intro hc
    exact absurd (key.mp hc) (by omega)

/-- Witness for C7 at the boundary: 262145 bytes is rejected with the
measured size, 262144 bytes is returned. -/
theorem video_size_gate_witness :
    checkVideoSize 262145 = .error (.outputTooLarge 262145) ∧
    checkVideoSize 262144 = .ok 262144 :=
  ⟨(video_size_gate 262145).1 (by norm_num),
   (video_size_gate 262144).2 (by norm_num)⟩

/-! ## C10 — the `/cancel` command -/

/-- C10: a `/cancel` with no pending submission is answered with the
informational no-pending reply and the map is unchanged; with a pending
submission, exactly that user's entry is deleted (all other users'
entries are untouched) and a confirmation is sent. -/
theorem cancel_command_spec (pending : PendingMap) (u : Nat) :
    (lookupPending pending u = none →
      handle_cancel_command pending true (some u) = (pending, [.noPending])) ∧
    (∀ pd, lookupPending pending u = some pd →
      (handle_cancel_command pending true (some u)).2 = [.cancelled] ∧
      lookupPending (handle_cancel_command pending true (some u)).1 u = none ∧
      ∀ w, w ≠ u →
        lookupPending (handle_cancel_command pending true (some u)).1 w =
          lookupPending pending w) := by
  constructor
  · intro h
    simp [handle_cancel_command, h]
  · intro pd h
    refine ⟨by simp [handle_cancel_command, h], ?_, ?_⟩
    · simp [handle_cancel_command, h, lookup_erase_self]
    · intro w hw
      simp [handle_cancel_command, h, lookup_erase_ne _ _ _ hw]

/-- Witness for C10: user 7 with no entry gets the informational reply;
with an entry, the entry for 7 is removed, user 9's entry survives, and a
confirmation is sent. -/
theorem cancel_command_spec_witness :
    (handle_cancel_command [] true (some 7)).2 = [CancelMsg.noPending] ∧
    (handle_cancel_command [(7, samplePending), (9, sampleAwaitingEmoji)] true (some 7)).2
      = [.cancelled] ∧
    lookupPending
      (handle_cancel_command [(7, samplePending), (9, sampleAwaitingEmoji)] true (some 7)).1 7
      = none ∧
    lookupPending
      (handle_cancel_command [(7, samplePending), (9, sampleAwaitingEmoji)] true (some 7)).1 9
      = lookupPending [(7, samplePending), (9, sampleAwaitingEmoji)] 9 := by
  have h1 := (cancel_command_spec [] 7).1 (by decide)
  have h2 := (cancel_command_spec [(7, samplePending), (9, sampleAwaitingEmoji)] 7).2
    samplePending (by decide)
  exact ⟨by rw [h1], h2.1, h2.2.1, h2.2.2 9 (by decide)⟩

/-! ## C6 — the animation transcoder's speed-up and resize rules -/

/-- C6: the transcoder applies the uniform speed-up `d / 3` exactly when
the declared duration exceeds 3 seconds (capping the output at 3 s,
otherwise leaving the duration alone), maps the larger of width/height to
512 with the other scaled proportionally, rounds each dimension down to
the nearest even integer, and fixes 30 fps; a 5-second 1000 by 500 input
is time-scaled to 3 seconds and spatially scaled to 512 by 256. -/
theorem video_transcode_spec :
    (∀ (w h : Nat) (d : Rat), 0 < w → 0 < h →
      (3 < d → (process_video_for_sticker w h d).factor = d / 3 ∧
               (process_video_for_sticker w h d).outDuration = 3) ∧
      (d ≤ 3 → (process_video_for_sticker w h d).factor = 1 ∧
               (process_video_for_sticker w h d).outDuration = d) ∧
      (h < w → (process_video_for_sticker w h d).newW = 512 ∧
               (process_video_for_sticker w h d).newH = 2 * ((512 * h / w) / 2)) ∧
      (w ≤ h → (process_video_for_sticker w h d).newH = 512 ∧
               (process_video_for_sticker w h d).newW = 2 * ((512 * w / h) / 2)) ∧
      (process_video_for_sticker w h d).fps = 30) ∧
    process_video_for_sticker 1000 500 5 = ⟨5 / 3, 3, 512, 256, 30⟩ := by
  constructor
  · intro w h d _ _
    refine ⟨?_, ?_, ?_, ?_, rfl⟩
    · intro hd
      have hd0 : d ≠ 0 := by
        intro h0; rw [h0] at hd; norm_num at hd
      constructor
      · simp [process_video_for_sticker, speedFactor, if_pos hd]
      · simp only [process_video_for_sticker, speedFactor, if_pos hd]
        rw [div_div_eq_mul_div, mul_comm, mul_div_assoc, div_self hd0, mul_one]
    · intro hd
      have : ¬ (3 : Rat) < d := not_lt.mpr hd
      constructor
      · simp [process_video_for_sticker, speedFactor, if_neg this]
      · simp [process_video_for_sticker, speedFactor, if_neg this]
    · intro hwh
      have : w > h := hwh
      constructor
      · simp [process_video_for_sticker, videoDims, if_pos this, evenize]
      · simp only [process_video_for_sticker, videoDims, if_pos this]
        rw [floor_scale512, evenize_eq]
    · intro hwh
      have : ¬ w > h := not_lt.mpr hwh
      constructor
      · simp [process_video_for_sticker, videoDims, if_neg this, evenize]
      · simp only [process_video_for_sticker, videoDims, if_neg this]
        rw [floor_scale512, evenize_eq]
  · have hfloor : ⌊(500 : Rat) * (512 / (1000 : Rat))⌋₊ = 256 := by
      have := floor_scale512 500 1000
      norm_num at this
      convert this using 3
      norm_num
    simp only [process_video_for_sticker, videoDims, speedFactor]
    norm_num [evenize, hfloor, TranscodePlan.mk.injEq]

/-- Witness for C6: the factor for a 5-second clip is 5/3 and the output
duration 3; the 1000 by 500 frame maps to 512 by 256; a 2-second clip is
not sped up. -/
theorem video_transcode_spec_witness :
    (process_video_for_sticker 1000 500 5).factor = 5 / 3 ∧
    (process_video_for_sticker 1000 500 5).outDuration = 3 ∧
    (process_video_for_sticker 1000 500 5).newW = 512 ∧
    (process_video_for_sticker 1000 500 5).newH = 2 * ((512 * 500 / 1000) / 2) ∧
    (process_video_for_sticker 64 64 2).factor = 1 := by
  have h1 := video_transcode_spec.1 1000 500 5 (by norm_num) (by norm_num)
  have h2 := video_transcode_spec.1 64 64 2 (by norm_num) (by norm_num)
  exact ⟨(h1.1 (by norm_num)).1, (h1.1 (by norm_num)).2,
    (h1.2.2.1 (by norm_num)).1, (h1.2.2.1 (by norm_num)).2,
    (h2.2.1 (by norm_num)).1⟩

/-! ## C8 — the image normalizer geometry -/

/-- C8: every decodable image (positive dimensions) is placed on a fixed
512 by 512 RGBA canvas with transparent background, serialized as PNG; it
is scaled by `min(512/w, 512/h)` (so the longer side becomes exactly 512
and the other `512*short/long`, aspect preserved) and pasted centered at
integer offsets `((512-newW)/2, (512-newH)/2)`; a 1024 by 256 input
becomes 512 by 128 with 192 px of transparent padding above and below. -/
theorem image_normalizer_spec :
    (∀ w h : Nat, 0 < w → 0 < h →
      (process_image_for_sticker w h).canvasW = 512 ∧
      (process_image_for_sticker w h).canvasH = 512 ∧
      (process_image_for_sticker w h).hasAlpha = true ∧
      (process_image_for_sticker w h).transparentBg = true ∧
      (process_image_for_sticker w h).fmt = .png ∧
      (h ≤ w → (process_image_for_sticker w h).newW = 512 ∧
               (process_image_for_sticker w h).newH = 512 * h / w) ∧
      (w ≤ h → (process_image_for_sticker w h).newH = 512 ∧
               (process_image_for_sticker w h).newW = 512 * w / h) ∧
      (process_image_for_sticker w h).offX
        = (512 - (process_image_for_sticker w h).newW) / 2 ∧
      (process_image_for_sticker w h).offY
        = (512 - (process_image_for_sticker w h).newH) / 2) ∧
    process_image_for_sticker 1024 256 = ⟨512, 512, true, true, .png, 512, 128, 0, 192⟩ ∧
    512 - (process_image_for_sticker 1024 256).newH
      - (process_image_for_sticker 1024 256).offY = 192 := by
  have hmin : ∀ w h : Nat, 0 < w → 0 < h → h ≤ w →
      min ((512 : Rat) / (w : Rat)) ((512 : Rat) / (h : Rat)) = 512 / (w : Rat) := by
    intro w h hw hh hle
    refine min_eq_left ?_
    have hh' : (0 : Rat) < (h : Rat) := by exact_mod_cast hh
    have hle' : (h : Rat) ≤ (w : Rat) := by exact_mod_cast hle
    exact div_le_div_of_nonneg_left (by norm_num) hh' hle'
  constructor
  · intro w h hw hh
    refine ⟨rfl, rfl, rfl, rfl, rfl, ?_, ?_, rfl, rfl⟩
    · intro hle
      constructor
      · simp only [process_image_for_sticker, hmin w h hw hh hle]
        rw [floor_scale512]
        exact Nat.mul_div_cancel 512 hw
      · simp only [process_image_for_sticker, hmin w h hw hh hle]
        rw [floor_scale512]
    · intro hle
      have hmin' : min ((512 : Rat) / (w : Rat)) ((512 : Rat) / (h : Rat))
          = 512 / (h : Rat) := by
        rw [min_comm]
        have hw' : (0 : Rat) < (w : Rat) := by exact_mod_cast hw
        have hle' : (w : Rat) ≤ (h : Rat) := by exact_mod_cast hle
        exact min_eq_left (div_le_div_of_nonneg_left (by norm_num) hw' hle')
      constructor
      · simp only [process_image_for_sticker, hmin']
        rw [floor_scale512]
        exact Nat.mul_div_cancel 512 hh
      · simp only [process_image_for_sticker, hmin']
        rw [floor_scale512]
  · have h1024 : min ((512 : Rat) / ((1024 : Nat) : Rat)) ((512 : Rat) / ((256 : Nat) : Rat))
        = 512 / ((1024 : Nat) : Rat) :=
      hmin 1024 256 (by norm_num) (by norm_num) (by norm_num)
    have hW : ⌊((1024 : Nat) : Rat) * (512 / ((1024 : Nat) : Rat))⌋₊ = 512 := by
      rw [floor_scale512]
    have hH : ⌊((256 : Nat) : Rat) * (512 / ((1024 : Nat) : Rat))⌋₊ = 128 := by
      rw [floor_scale512]
    constructor
    · simp only [process_image_for_sticker, h1024, hW, hH, ImagePlan.mk.injEq]
    · simp only [process_image_for_sticker, h1024, hH]

/-- Witness for C8: the 1024 by 256 example, extracted by applying the
theorem at concrete dimensions. -/
theorem image_normalizer_spec_witness :
    (process_image_for_sticker 1024 256).newW = 512 ∧
    (process_image_for_sticker 1024 256).newH = 512 * 256 / 1024 ∧
    (process_image_for_sticker 333 333).canvasW = 512 := by
  have h1 := image_normalizer_spec.1 1024 256 (by norm_num) (by norm_num)
  have h2 := image_normalizer_spec.1 333 333 (by norm_num) (by norm_num)
  exact ⟨(h1.2.2.2.2.2.1 (by norm_num)).1, (h1.2.2.2.2.2.1 (by norm_num)).2, h2.1⟩

/-! ## C9 — forged tokens (mismatched embedded user id) are silently dropped -/

/-- C9: whenever the callback payload decodes to a pack name and an
embedded user id different from the id of the user who pressed the
button, `handle_sticker_pack_selection` sends nothing, invokes nothing,
does not crash, and leaves the pending map exactly as it was. -/
theorem forged_token_dropped (packs : List (List Char)) (pending : PendingMap)
    (userId : Nat) (dat : List Char) (ca g : Bool) (p : List Char) (c : Int)
    (hdec : decodePhase dat = .ok p c) (hne : c ≠ (userId : Int)) :
    handle_sticker_pack_selection packs pending userId dat ca g =
      ⟨pending, [], false, false⟩ := by
  cases ca <;> simp [handle_sticker_pack_selection, hdec, hne]

/-- Witness for C9: token `pack_a|5` pressed by user 7 is dropped with no
message and no change to the (nonempty) map. -/
theorem forged_token_dropped_witness :
    handle_sticker_pack_selection [['a']] [(7, samplePending)] 7
      ("pack_a|5".toList) true true =
      ⟨[(7, samplePending)], [], false, false⟩ :=
  forged_token_dropped [['a']] [(7, samplePending)] 7 ("pack_a|5".toList)
    true true ['a'] 5 (by decide) (by decide)

/-! ## C1 — what happens to the pending entry when the Gateway fails

The claim says a Gateway failure still clears the user's pending entry.
In the source, `del self.pending_stickers[user_id]` (line 530) sits
inside the `try` block *after* `add_sticker_to_pack`; the `except` arm
(lines 550-554) edits an error message but performs no deletion, so on
any failure of fetch/processing/submit the entry survives. -/

/-- Counterexample to C1 as stated: user 42's selection reaches the
Gateway (`invoked = true`), the Gateway fails, the failure is surfaced —
and the pending entry for 42 is still present after the handler returns,
where the claim demands that no pending entry exist. -/
theorem gateway_failure_keeps_pending_counterexample :
    (handle_sticker_pack_selection [['g']] [(42, samplePending)] 42
        ("pack_g|42".toList) true false).invoked = true ∧
    (handle_sticker_pack_selection [['g']] [(42, samplePending)] 42
        ("pack_g|42".toList) true false).edits = [SelMsg.gatewayFailure] ∧
    lookupPending (handle_sticker_pack_selection [['g']] [(42, samplePending)] 42
        ("pack_g|42".toList) true false).pending 42 = some samplePending := by
  decide

/-- C1 amended: on any Gateway failure the failure is surfaced to the
user, but the pending entry is NOT cleared — the map is returned exactly
as it was; only a successful submission (or an explicit cancel or a
superseding submission) removes the entry. -/
theorem gateway_failure_keeps_pending (packs : List (List Char))
    (pending : PendingMap) (userId : Nat) (dat : List Char) (p : List Char)
    (c : Int) (pd : PendingSticker) (hdec : decodePhase dat = .ok p c)
    (hc : c = (userId : Int)) (hpd : lookupPending pending userId = some pd)
    (hp : p ∈ packs) :
    handle_sticker_pack_selection packs pending userId dat true false =
      ⟨pending, [SelMsg.gatewayFailure], true, false⟩ := by
  simp [handle_sticker_pack_selection, hdec, hc, hpd, hp]

/-- Witness for the amended C1 at a concrete failing submission. -/
theorem gateway_failure_keeps_pending_witness :
    handle_sticker_pack_selection [['g']] [(42, samplePending)] 42
        ("pack_g|42".toList) true false =
      ⟨[(42, samplePending)], [SelMsg.gatewayFailure], true, false⟩ :=
  gateway_failure_keeps_pending [['g']] [(42, samplePending)] 42
    ("pack_g|42".toList) ['g'] 42 samplePending (by decide) (by decide)
    (by decide) (by decide)

/-! ## C2 — when a selection event triggers the Gateway

The claim says the Gateway runs only in the `AwaitingCollection` stage
(`waiting_for_emoji = False`).  The source (line 476) only checks that
*some* pending entry exists — `self.pending_stickers.get(user_id)` — and
never reads `waiting_for_emoji` in this handler, so a stale selection
button pressed while a fresh submission is still awaiting its emoji also
reaches the Gateway (with the default emoji `"😀"`). -/

/-- Counterexample to C2 as stated: user 42's entry is in the
`AwaitingEmoji` stage (`waiting_for_emoji = true`), yet a valid selection
token triggers the Gateway, sends a response and mutates the map — the
claim demands the event be ignored with no response and no state
change. -/
theorem selection_in_awaiting_emoji_counterexample :
    sampleAwaitingEmoji.waiting_for_emoji = true ∧
    handle_sticker_pack_selection [['g']] [(42, sampleAwaitingEmoji)] 42
        ("pack_g|42".toList) true true =
      ⟨[], [SelMsg.success ['g']], true, false⟩ := by
  decide

/-- C2 amended: a selection-control event triggers the Gateway exactly
when the issuing user has *any* pending submission — in either stage,
`waiting_for_emoji` is never consulted — and the token decodes with a
matching user id to a collection in the catalog; an event for a user
with no pending entry is ignored with no response and no state change. -/
theorem selection_trigger_condition :
    (∀ (packs : List (List Char)) (pending : PendingMap) (userId : Nat)
        (dat : List Char) (g : Bool) (p : List Char) (c : Int)
        (pd : PendingSticker),
      decodePhase dat = .ok p c → c = (userId : Int) →
      lookupPending pending userId = some pd → p ∈ packs →
      (handle_sticker_pack_selection packs pending userId dat true g).invoked
        = true) ∧
    (∀ (packs : List (List Char)) (pending : PendingMap) (userId : Nat)
        (dat : List Char) (g : Bool) (p : List Char) (c : Int),
      decodePhase dat = .ok p c → c = (userId : Int) →
      lookupPending pending userId = none →
      handle_sticker_pack_selection packs pending userId dat true g =
        ⟨pending, [], false, false⟩) := by
  constructor
  · intro packs pending userId dat g p c pd hdec hc hpd hp
    rcases g <;> simp [handle_sticker_pack_selection, hdec, hc, hpd, hp]
  · intro packs pending userId dat g p c hdec hc hpd
    simp [handle_sticker_pack_selection, hdec, hc, hpd]

/-- Witness for the amended C2: an `AwaitingEmoji` entry still triggers
the Gateway; with no entry at all the event is silently ignored. -/
theorem selection_trigger_condition_witness :
    (handle_sticker_pack_selection [['g']] [(42, sampleAwaitingEmoji)] 42
        ("pack_g|42".toList) true true).invoked = true ∧
    handle_sticker_pack_selection [['g']] [] 42 ("pack_g|42".toList) true true =
      ⟨[], [], false, false⟩ :=
  ⟨selection_trigger_condition.1 [['g']] [(42, sampleAwaitingEmoji)] 42
      ("pack_g|42".toList) true ['g'] 42 sampleAwaitingEmoji (by decide)
      (by decide) (by decide) (by decide),
   selection_trigger_condition.2 [['g']] [] 42 ("pack_g|42".toList) true
      ['g'] 42 (by decide) (by decide) (by decide)⟩

/-! ## C5 — the sanitizer's output shape

Lemmas tracking one letter of the title through the five passes of
`make_sticker_set_name`, and the subset relations giving the
word-character bound on the final stem. -/

lemma alpha_not_pyspace {c : Char} (h : c.isAlpha = true) : isPySpace c = false := by
  cases hsp : isPySpace c
  · rfl
  · exfalso
    simp only [isPySpace, Bool.or_eq_true, decide_eq_true_eq] at hsp
    rcases hsp with ((((h1 | h1) | h1) | h1) | h1) | h1 <;> subst h1 <;> simp at h

lemma mem_collapseWsAux {c : Char} (hc : isPySpace c = false) :
    ∀ (b : Bool) (s : List Char), c ∈ s → c ∈ collapseWsAux b s := by
  intro b s
  induction s generalizing b with
  | nil => intro h; cases h
  | cons d ds ih =>
    intro h
    rcases List.mem_cons.mp h with rfl | hmem
    · simp [collapseWsAux, hc]
    · by_cases hd : isPySpace d = true
      · rcases b <;> simp [collapseWsAux, hd] <;>
          first
          | exact ih true hmem
          | exact Or.inr (ih true hmem)
      · simp only [collapseWsAux, hd, Bool.false_eq_true, if_false]
        exact List.mem_cons_of_mem d (ih false hmem)

lemma mem_collapseUndAux {c : Char} (hc : c ≠ '_') :
    ∀ (b : Bool) (s : List Char), c ∈ s → c ∈ collapseUndAux b s := by
  intro b s
  induction s generalizing b with
  | nil => intro h; cases h
  | cons d ds ih =>
    intro h
    rcases List.mem_cons.mp h with rfl | hmem
    · simp [collapseUndAux, hc]
    · by_cases hd : d = '_'
      · rcases b <;> simp [collapseUndAux, hd] <;>
          first
          | exact ih true hmem
          | exact Or.inr (ih true hmem)
      · simp only [collapseUndAux, hd, if_false]
        exact List.mem_cons_of_mem d (ih false hmem)

lemma mem_of_mem_collapseUndAux {c : Char} :
    ∀ (b : Bool) (s : List Char), c ∈ collapseUndAux b s → c ∈ s := by
  intro b s
  induction s generalizing b with
  | nil => intro h; simp [collapseUndAux] at h
  | cons d ds ih =>
    intro h
    by_cases hd : d = '_'
    · subst hd
      rcases b with _ | _
      · simp only [collapseUndAux, if_pos rfl, Bool.false_eq_true, if_false] at h
        rcases List.mem_cons.mp h with rfl | hmem
        · exact List.mem_cons_self _ _
        · exact List.mem_cons_of_mem _ (ih true hmem)
      · simp only [collapseUndAux, if_pos rfl, if_true] at h
        exact List.mem_cons_of_mem _ (ih true h)
    · simp only [collapseUndAux, hd, if_false] at h
      rcases List.mem_cons.mp h with rfl | hmem
      · exact List.mem_cons_self _ _
      · exact List.mem_cons_of_mem _ (ih false hmem)

lemma mem_of_mem_dropWhile {p : Char → Bool} :
    ∀ {l : List Char} {c : Char}, c ∈ List.dropWhile p l → c ∈ l := by
  intro l
  induction l with
  | nil => intro c h; simp at h
  | cons d ds ih =>
    intro c h
    by_cases hd : p d = true
    · rw [List.dropWhile_cons_of_pos hd] at h
      exact List.mem_cons_of_mem d (ih h)
    · rw [List.dropWhile_cons_of_neg hd] at h
      exact h

lemma dropLeadingNonLetters_head :
    ∀ (s : List Char), (∃ c ∈ s, c.isAlpha = true) →
      ∃ c0 rest, dropLeadingNonLetters s = c0 :: rest ∧ c0.isAlpha = true := by
  intro s
  induction s with
  | nil => rintro ⟨c, hc, -⟩; cases hc
  | cons d ds ih =>
    rintro ⟨c, hc, halpha⟩
    by_cases hd : d.isAlpha = true
    · exact ⟨d, ds, by simp [dropLeadingNonLetters, List.dropWhile, hd], hd⟩
    · have hstep : dropLeadingNonLetters (d :: ds) = dropLeadingNonLetters ds := by
        simp [dropLeadingNonLetters, List.dropWhile, hd]
      rcases List.mem_cons.mp hc with rfl | hmem
      · exact absurd halpha hd
      · rw [hstep]
        exact ih ⟨c, hmem, halpha⟩

lemma rstripUnd_ne_nil {c : Char} (cs : List Char) (hc : c ≠ '_') :
    rstripUnd (c :: cs) ≠ [] := by
  cases h : rstripUnd cs with
  | nil => simp [rstripUnd, h, hc]
  | cons p ps => simp [rstripUnd, h]

lemma rstripUnd_cons_shape (c : Char) (cs : List Char) :
    rstripUnd (c :: cs) = [] ∨ ∃ r, rstripUnd (c :: cs) = c :: r := by
  cases h : rstripUnd cs with
  | nil =>
    by_cases hc : c = '_'
    · left; simp [rstripUnd, h, hc]
    · right; exact ⟨[], by simp [rstripUnd, h, hc]⟩
  | cons p ps => right; exact ⟨p :: ps, by simp [rstripUnd, h]⟩

lemma mem_of_mem_rstripUnd {c : Char} :
    ∀ (s : List Char), c ∈ rstripUnd s → c ∈ s := by
  intro s
  induction s with
  | nil => intro h; simp [rstripUnd] at h
  | cons d ds ih =>
    intro h
    cases hm : rstripUnd ds with
    | nil =>
      by_cases hd : d = '_'
      · simp [rstripUnd, hm, hd] at h
      · simp only [rstripUnd, hm, hd, if_false] at h
        rcases List.mem_cons.mp h with rfl | hmem
        · exact List.mem_cons_self _ _
        · cases hmem
    | cons p ps =>
      simp only [rstripUnd, hm] at h
      rcases List.mem_cons.mp h with rfl | hmem
      · exact List.mem_cons_self _ _
      · exact List.mem_cons_of_mem _ (ih (hm ▸ hmem))

/-- Counterexample to C5 as stated: the title `". !"` contains mixed
whitespace and punctuation, yet the sanitizer's output `"_by_goat"` does
not match `^[A-Za-z][A-Za-z0-9_]*_by_<handle>$` — every character of the
title is stripped, so the output starts with an underscore instead of a
letter. -/
theorem sanitizer_pattern_counterexample :
    ' ' ∈ ['.', ' ', '!'] ∧ '.' ∈ ['.', ' ', '!'] ∧
    make_sticker_set_name ['.', ' ', '!'] ['g', 'o', 'a', 't'] =
      ['_', 'b', 'y', '_', 'g', 'o', 'a', 't'] ∧
    ¬ matchesPackPattern (make_sticker_set_name ['.', ' ', '!'] ['g', 'o', 'a', 't'])
        ['g', 'o', 'a', 't'] := by
  refine ⟨by decide, by decide, by decide, ?_⟩
  rw [show make_sticker_set_name ['.', ' ', '!'] ['g', 'o', 'a', 't'] =
      ['_', 'b', 'y', '_', 'g', 'o', 'a', 't'] from by decide]
  rintro ⟨stem, heq, hne, -, -⟩
  have hlen := congrArg List.length heq
  simp only [List.length_append, List.length_cons, List.length_nil] at hlen
  exact hne (List.eq_nil_of_length_eq_zero (by omega))

/-- C5 amended: for every title containing at least one ASCII letter (and
arbitrary further whitespace/punctuation) and every owner handle, the
sanitizer's output matches `^[A-Za-z][A-Za-z0-9_]*_by_<handle>$`.  When
the title contains no letter at all, every character is stripped and the
output `"_by_<handle>"` starts with the underscore of the suffix instead
of a letter. -/
theorem sanitizer_pattern (title handle : List Char)
    (hletter : ∃ c ∈ title, c.isAlpha = true) :
    matchesPackPattern (make_sticker_set_name title handle) handle := by
  obtain ⟨l, hmem, halpha⟩ := hletter
  have h1 : l ∈ collapseWs title :=
    mem_collapseWsAux (alpha_not_pyspace halpha) false title hmem
  have hword : isWordChar l = true := by simp [isWordChar, halpha]
  have h2 : l ∈ stripNonWord (collapseWs title) :=
    List.mem_filter.mpr ⟨h1, hword⟩
  have hund : l ≠ '_' := by rintro rfl; simp at halpha
  have h3 : l ∈ collapseUnd (stripNonWord (collapseWs title)) :=
    mem_collapseUndAux hund false _ h2
  obtain ⟨c0, rest, h4, hc0⟩ :=
    dropLeadingNonLetters_head (collapseUnd (stripNonWord (collapseWs title)))
      ⟨l, h3, halpha⟩
  have hc0u : c0 ≠ '_' := by rintro rfl; simp at hc0
  have hnn : rstripUnd (c0 :: rest) ≠ [] := rstripUnd_ne_nil rest hc0u
  rcases rstripUnd_cons_shape c0 rest with hnil | ⟨r, hshape⟩
  · exact absurd hnil hnn
  refine ⟨rstripUnd (c0 :: rest), ?_, hnn, ?_, c0, r, hshape, hc0⟩
  · unfold make_sticker_set_name
    rw [h4]
  · intro c hcmem
    have : c ∈ dropLeadingNonLetters (collapseUnd (stripNonWord (collapseWs title))) := by
      rw [h4]
      exact mem_of_mem_rstripUnd _ hcmem
    have : c ∈ collapseUnd (stripNonWord (collapseWs title)) :=
      mem_of_mem_dropWhile this
    have : c ∈ stripNonWord (collapseWs title) :=
      mem_of_mem_collapseUndAux false _ this
    exact (List.mem_filter.mp this).2

/-- Witness for the amended C5: the title `"Goat Pack!"` (whitespace and
punctuation, with letters) sanitizes to a pattern match. -/
theorem sanitizer_pattern_witness :
    matchesPackPattern
      (make_sticker_set_name
        ['G', 'o', 'a', 't', ' ', 'P', 'a', 'c', 'k', '!'] ['b', 'o', 't'])
      ['b', 'o', 't'] :=
  sanitizer_pattern ['G', 'o', 'a', 't', ' ', 'P', 'a', 'c', 'k', '!']
    ['b', 'o', 't'] ⟨'G', by decide, by decide⟩

/-! ## C3/C4 — the callback token codec

Lemmas about `stripMarker` (Python `replace("pack_", "")`), `pySplit`,
and the decimal rendering/parsing of the user id. -/

lemma stripMarker_cons (c : Char) (cs : List Char)
    (h : startsWith packMarker (c :: cs) = false) :
    stripMarker (c :: cs) = c :: stripMarker cs := by
  rw [stripMarker.eq_def]
  split
  · rename_i rest heq
    rw [heq] at h
    simp [startsWith, packMarker] at h
  · rename_i c' rest heq
    injection heq with h1 h2
    subst h1; subst h2
    rfl
  · rename_i heq
    cases heq

/-- A marker-free string passes through `replace("pack_", "")` unchanged. -/
lemma stripMarker_of_no_marker :
    ∀ s : List Char, hasMarker s = false → stripMarker s = s := by
  intro s
  induction s with
  | nil => intro _; rfl
  | cons c cs ih =>
    intro h
    rcases Bool.or_eq_false_iff.mp h with ⟨h1, h2⟩
    rw [stripMarker_cons c cs h1, ih h2]

/-- If a prematch survives past the separator, the separator would have to
occur in the pattern; so a match of a separator-free pattern against
`xs ++ '|' :: ys` already matches against `xs`. -/
lemma startsWith_append_sep :
    ∀ (p xs ys : List Char), (∀ c ∈ p, c ≠ '|') →
      startsWith p (xs ++ '|' :: ys) = true → startsWith p xs = true := by
  intro p
  induction p with
  | nil => intro xs ys _ _; rfl
  | cons a p' ih =>
    intro xs ys hp h
    cases xs with
    | nil =>
      simp only [List.nil_append, startsWith, Bool.and_eq_true, decide_eq_true_eq] at h
      exact absurd h.1 (hp a (List.mem_cons_self a p'))
    | cons x xs' =>
      simp only [List.cons_append, startsWith, Bool.and_eq_true] at h ⊢
      exact ⟨h.1, ih xs' ys (fun c hc => hp c (List.mem_cons_of_mem a hc)) h.2⟩

/-- No occurrence of the marker inside a digit string. -/
lemma no_marker_in_digits :
    ∀ ds : List Char, ds.all Char.isDigit = true → hasMarker ds = false := by
  intro ds
  induction ds with
  | nil => intro _; rfl
  | cons c cs ih =>
    intro h
    rcases List.all_cons .. ▸ h with h'
    rcases Bool.and_eq_true .. ▸ h' with ⟨hc, hcs⟩
    have hne : ¬ ('p' = c) := by
      rintro rfl; exact absurd hc (by decide)
    simp [hasMarker, startsWith, packMarker, hne, ih hcs]

/-- No occurrence of the marker anywhere in `name ++ "|" ++ digits` when
`name` is marker-free: the marker contains no `'|'` and no digit, so an
occurrence cannot start in `name` and extend past it. -/
lemma no_marker_in_encoded :
    ∀ (name ds : List Char), hasMarker name = false →
      ds.all Char.isDigit = true → hasMarker (name ++ '|' :: ds) = false := by
  intro name
  induction name with
  | nil =>
    intro ds _ hds
    have hne : ¬ ('p' = '|') := by decide
    simp [hasMarker, startsWith, packMarker, hne, no_marker_in_digits ds hds]
  | cons c name' ih =>
    intro ds h hds
    rcases Bool.or_eq_false_iff.mp h with ⟨h1, h2⟩
    have hfirst : startsWith packMarker ((c :: name') ++ '|' :: ds) = false := by
      cases hsw : startsWith packMarker ((c :: name') ++ '|' :: ds) with
      | false => rfl
      | true =>
        have := startsWith_append_sep packMarker (c :: name') ds (by decide) hsw
        rw [h1] at this
        cases this
    have : hasMarker ((c :: name') ++ '|' :: ds) =
        (startsWith packMarker ((c :: name') ++ '|' :: ds)
          || hasMarker (name' ++ '|' :: ds)) := rfl
    rw [this, hfirst, ih ds h2 hds]
    rfl

lemma pySplit_ne_nil (sep : Char) : ∀ s : List Char, pySplit sep s ≠ [] := by
  intro s
  induction s with
  | nil => simp [pySplit]
  | cons c cs ih =>
    by_cases hc : c = sep
    · simp [pySplit, hc]
    · cases hm : pySplit sep cs with
      | nil => exact absurd hm ih
      | cons p ps => simp [pySplit, hc, hm]

/-- Splitting a separator-free string yields that one part. -/
lemma pySplit_of_no_sep (sep : Char) :
    ∀ s : List Char, (∀ c ∈ s, c ≠ sep) → pySplit sep s = [s] := by
  intro s
  induction s with
  | nil => intro _; rfl
  | cons c cs ih =>
    intro h
    have hc : ¬ (c = sep) := h c (List.mem_cons_self c cs)
    rw [pySplit, if_neg hc, ih (fun d hd => h d (List.mem_cons_of_mem c hd))]

/-- Splitting `xs ++ sep :: ys` with `xs` separator-free peels off `xs`. -/
lemma pySplit_append (sep : Char) :
    ∀ (xs ys : List Char), (∀ c ∈ xs, c ≠ sep) →
      pySplit sep (xs ++ sep :: ys) = xs :: pySplit sep ys := by
  intro xs
  induction xs with
  | nil => intro ys _; simp [pySplit]
  | cons x xs' ih =>
    intro ys h
    have hx : ¬ (x = sep) := h x (List.mem_cons_self x xs')
    have hrec := ih ys (fun d hd => h d (List.mem_cons_of_mem x hd))
    rw [List.cons_append, pySplit, if_neg hx, hrec]

/-! Decimal rendering of the user id (Python `str(user_id)`) and its
round trip through the model of `int()`. -/

lemma digitChar_isDigit : ∀ d : Nat, d < 10 → (digitChar d).isDigit = true := by decide

lemma digitChar_decode : ∀ d : Nat, d < 10 → (digitChar d).toNat - 48 = d := by decide

lemma natToChars_all_digits (n : Nat) : (natToChars n).all Char.isDigit = true := by
  unfold natToChars
  by_cases h : n = 0
  · rw [if_pos h]; decide
  · rw [if_neg h, List.all_reverse, List.all_eq_true]
    intro c hc
    obtain ⟨d, hd, rfl⟩ := List.mem_map.mp hc
    exact digitChar_isDigit d (Nat.digits_lt_base (by norm_num) hd)

lemma natToChars_ne_nil (n : Nat) : natToChars n ≠ [] := by
  unfold natToChars
  by_cases h : n = 0
  · rw [if_pos h]; simp
  · rw [if_neg h]
    simp [Nat.digits_ne_nil_iff_ne_zero, h]

lemma foldl_horner (L : List Nat) (a : Nat) :
    List.foldl (fun x d => 10 * x + d) a L.reverse
      = a * 10 ^ L.length + Nat.ofDigits 10 L := by
  induction L generalizing a with
  | nil => simp [Nat.ofDigits_nil]
  | cons d L' ih =>
    rw [List.reverse_cons, List.foldl_append, ih a]
    simp only [List.foldl_cons, List.foldl_nil, Nat.ofDigits_cons, List.length_cons]
    ring

lemma foldl_digit_decode :
    ∀ (L : List Nat) (a : Nat), (∀ d ∈ L, d < 10) →
      List.foldl (fun x c => 10 * x + c) a (L.map (fun d => (digitChar d).toNat - 48))
        = List.foldl (fun x d => 10 * x + d) a L := by
  intro L
  induction L with
  | nil => intro a _; rfl
  | cons d L' ih =>
    intro a h
    simp only [List.map_cons, List.foldl_cons]
    rw [digitChar_decode d (h d (List.mem_cons_self d L'))]
    exact ih _ (fun e he => h e (List.mem_cons_of_mem d he))

lemma digitsToNat_natToChars (n : Nat) : digitsToNat (natToChars n) = n := by
  unfold natToChars
  by_cases h : n = 0
  · rw [if_pos h, h]; decide
  · rw [if_neg h]
    unfold digitsToNat
    have hmap : ((Nat.digits 10 n).map digitChar).reverse
        = ((Nat.digits 10 n).reverse).map digitChar := (List.map_reverse _ _).symm
    rw [hmap, List.foldl_map]
    have hlt : ∀ d ∈ (Nat.digits 10 n).reverse, d < 10 := by
      intro d hd
      exact Nat.digits_lt_base (by norm_num) (List.mem_reverse.mp hd)
    have hcong : List.foldl (fun x d => 10 * x + ((digitChar d).toNat - 48)) 0
        ((Nat.digits 10 n).reverse)
        = List.foldl (fun x d => 10 * x + d) 0 ((Nat.digits 10 n).reverse) := by
      have := foldl_digit_decode ((Nat.digits 10 n).reverse) 0
        (fun d hd => hlt d hd)
      rw [← this, List.foldl_map]
    rw [hcong, foldl_horner, Nat.ofDigits_digits, zero_mul, zero_add]

lemma parseInt_natToChars (n : Nat) : parseInt (natToChars n) = some (n : Int) := by
  cases hshape : natToChars n with
  | nil => exact absurd hshape (natToChars_ne_nil n)
  | cons c cs =>
    have hall : (c :: cs).all Char.isDigit = true := hshape ▸ natToChars_all_digits n
    have hc : c.isDigit = true := by
      rcases Bool.and_eq_true .. ▸ (List.all_cons .. ▸ hall) with ⟨h1, -⟩
      exact h1
    have hne : ¬ (c = '-') := by
      rintro rfl; exact absurd hc (by decide)
    rw [parseInt, if_neg hne, if_pos hall]
    have := digitsToNat_natToChars n
    rw [hshape] at this
    rw [this]

/-! ### C3 — the round trip -/

/-- Counterexample to C3 as stated: the collection name `"xpack_y"` is
free of the separator `'|'`, yet Python's `replace` deletes *every*
occurrence of `"pack_"`, not just the leading marker, so decoding the
encoded token yields `("xy", 1)` instead of `("xpack_y", 1)`. -/
theorem token_roundtrip_counterexample :
    (['x', 'p', 'a', 'c', 'k', '_', 'y'].all (· ≠ '|')) = true ∧
    decodePhase (encodeCallback ['x', 'p', 'a', 'c', 'k', '_', 'y'] 1) =
      .ok ['x', 'y'] 1 ∧
    (['x', 'y'] : List Char) ≠ ['x', 'p', 'a', 'c', 'k', '_', 'y'] := by
  have h1 : natToChars 1 = ['1'] := by
    rw [natToChars]
    norm_num
    decide
  refine ⟨by decide, ?_, by decide⟩
  rw [show encodeCallback ['x', 'p', 'a', 'c', 'k', '_', 'y'] 1 =
      ['p', 'a', 'c', 'k', '_', 'x', 'p', 'a', 'c', 'k', '_', 'y', '|', '1'] from by
    rw [encodeCallback, h1]
    decide]
  decide

/-- C3 amended: the round trip `decode(encode(name, uid)) = (name, uid)`
holds for every nonempty collection name that is free of the separator
`'|'` *and* does not contain the marker `"pack_"` as a substring (the
decoder's `replace` deletes every occurrence of the marker, not only the
leading one, so names containing `"pack_"` are mangled). -/
theorem token_roundtrip (name : List Char) (uid : Nat) (hne : name ≠ [])
    (hsep : ∀ c ∈ name, c ≠ '|') (hmark : hasMarker name = false) :
    decodePhase (encodeCallback name uid) = .ok name (uid : Int) := by
  have hdig := natToChars_all_digits uid
  have hstrip : stripMarker (encodeCallback name uid)
      = name ++ '|' :: natToChars uid := by
    rw [encodeCallback, List.append_assoc]
    have hstep : stripMarker (packMarker ++ (name ++ '|' :: natToChars uid))
        = stripMarker (name ++ '|' :: natToChars uid) := rfl
    rw [hstep]
    exact stripMarker_of_no_marker _ (no_marker_in_encoded name _ hmark hdig)
  have hsplit : pySplit '|' (stripMarker (encodeCallback name uid))
      = [name, natToChars uid] := by
    rw [hstrip, pySplit_append '|' name _ hsep, pySplit_of_no_sep]
    intro c hc
    rintro rfl
    have : ('|' : Char).isDigit = true := by
      have := List.all_eq_true.mp hdig _ hc
      exact this
    exact absurd this (by decide)
  have hanne : name.isEmpty = false := by
    cases name with
    | nil => exact absurd rfl hne
    | cons a as => rfl
  have hdnne : (natToChars uid).isEmpty = false := by
    cases hs : natToChars uid with
    | nil => exact absurd hs (natToChars_ne_nil uid)
    | cons a as => rfl
  simp only [decodePhase, hsplit, List.any_cons, List.any_nil, hanne, hdnne,
    Bool.or_self, Bool.or_false, Bool.false_eq_true, if_false,
    parseInt_natToChars uid]

/-- Witness for the amended C3 at name `"goats"`, uid 9000. -/
theorem token_roundtrip_witness :
    decodePhase (encodeCallback ['g', 'o', 'a', 't', 's'] 9000) =
      .ok ['g', 'o', 'a', 't', 's'] (9000 : Int) :=
  token_roundtrip ['g', 'o', 'a', 't', 's'] 9000 (by decide) (by decide) (by decide)

/-! ### C4 — malformed payloads -/

/-- The handled drop (`if not all(callback_data): return`) occurs exactly
when the split contains an empty part. -/
lemma decodePhase_dropped_iff (dat : List Char) :
    decodePhase dat = .dropped ↔
      (pySplit '|' (stripMarker dat)).any (·.isEmpty) = true := by
  cases hany : (pySplit '|' (stripMarker dat)).any (·.isEmpty) with
  | true => simp [decodePhase, hany]
  | false =>
    simp only [decodePhase, hany, Bool.false_eq_true, if_false]
    constructor
    · intro h
      rcases hp : pySplit '|' (stripMarker dat) with _ | ⟨a, _ | ⟨b, _ | ⟨x, xs⟩⟩⟩ <;>
          rw [hp] at h
      · simp at h
      · simp at h
      · rcases hpi : parseInt b with _ | k <;> simp [hpi] at h
      · simp at h
    · intro h
      exact h.elim

/-- Counterexample to C4 as stated: the payload `"pack_a|b|c"` splits into
three non-empty parts, so by the claim decoding should fail with a
handled `MalformedToken`; instead the tuple unpacking
`selected_pack, callback_user_id = callback_data` (outside the `try`
block) raises an uncaught `ValueError`, as does `int("z")` for
`"pack_a|z"`.  The pending map is still never mutated. -/
theorem malformed_token_crash_counterexample :
    pySplit '|' (stripMarker ("pack_a|b|c".toList)) = [['a'], ['b'], ['c']] ∧
    decodePhase ("pack_a|b|c".toList) = .crashed ∧
    decodePhase ("pack_a|z".toList) = .crashed ∧
    handle_sticker_pack_selection [['a']] [(7, samplePending)] 7
        ("pack_a|b|c".toList) true true =
      ⟨[(7, samplePending)], [], false, true⟩ := by
  decide

/-- C4 amended: only payloads whose split contains an empty part are
dropped by the handled `if not all(...)` check; a payload splitting into
a number of non-empty parts other than two, or whose second part is not
an integer, instead raises an uncaught exception out of the handler.  In
every malformed case (handled or not) nothing is sent, the Gateway is
not invoked, and no user's pending state is mutated. -/
theorem malformed_token_behavior :
    (∀ dat : List Char,
      decodePhase dat = .dropped ↔
        (pySplit '|' (stripMarker dat)).any (·.isEmpty) = true) ∧
    (∀ (packs : List (List Char)) (pending : PendingMap) (userId : Nat)
        (dat : List Char) (ca g : Bool),
      (∀ p c, decodePhase dat ≠ .ok p c) →
      (handle_sticker_pack_selection packs pending userId dat ca g).pending
          = pending ∧
      (handle_sticker_pack_selection packs pending userId dat ca g).edits = [] ∧
      (handle_sticker_pack_selection packs pending userId dat ca g).invoked
          = false) ∧
    (∀ (packs : List (List Char)) (pending : PendingMap) (userId : Nat)
        (dat : List Char) (ca g : Bool),
      decodePhase dat = .dropped →
      handle_sticker_pack_selection packs pending userId dat ca g =
        ⟨pending, [], false, false⟩) ∧
    (∀ (packs : List (List Char)) (pending : PendingMap) (userId : Nat)
        (dat : List Char) (g : Bool),
      decodePhase dat = .crashed →
      handle_sticker_pack_selection packs pending userId dat true g =
        ⟨pending, [], false, true⟩) := by
  refine ⟨decodePhase_dropped_iff, ?_, ?_, ?_⟩
  · intro packs pending userId dat ca g h
    cases hd : decodePhase dat with
    | dropped => cases ca <;> simp [handle_sticker_pack_selection, hd]
    | crashed => cases ca <;> simp [handle_sticker_pack_selection, hd]
    | ok p c => exact absurd hd (h p c)
  · intro packs pending userId dat ca g h
    cases ca <;> simp [handle_sticker_pack_selection, h]
  · intro packs pending userId dat g h
    simp [handle_sticker_pack_selection, h]

/-- Witness for the amended C4: `"pack_|5"` (empty first part) is dropped
silently; `"pack_a|b|c"` leaves the map, the chat and the Gateway
untouched. -/
theorem malformed_token_behavior_witness :
    decodePhase ("pack_|5".toList) = .dropped ∧
    handle_sticker_pack_selection [['a']] [(7, samplePending)] 7
        ("pack_|5".toList) true true = ⟨[(7, samplePending)], [], false, false⟩ ∧
    (handle_sticker_pack_selection [['a']] [(7, samplePending)] 7
        ("pack_a|b|c".toList) true true).pending = [(7, samplePending)] ∧
    (handle_sticker_pack_selection [['a']] [(7, samplePending)] 7
        ("pack_a|b|c".toList) true true).edits = [] ∧
    (handle_sticker_pack_selection [['a']] [(7, samplePending)] 7
        ("pack_a|b|c".toList) true true).invoked = false := by
  have hdrop : decodePhase ("pack_|5".toList) = .dropped :=
    (malformed_token_behavior.1 ("pack_|5".toList)).mpr (by decide)
  have hnook : ∀ p c, decodePhase ("pack_a|b|c".toList) ≠ .ok p c := by
    intro p c
    rw [show decodePhase ("pack_a|b|c".toList) = .crashed from by decide]
    simp
  have h2 := malformed_token_behavior.2.1 [['a']] [(7, samplePending)] 7
    ("pack_a|b|c".toList) true true hnook
  have h3 := malformed_token_behavior.2.2.1 [['a']] [(7, samplePending)] 7
    ("pack_|5".toList) true true hdrop
  exact ⟨hdrop, h3, h2.1, h2.2.1, h2.2.2⟩

end StickerBot
